import Mathlib

/-!
Shallow embedding of the stateful session layer of webos-devtools-mcp:
the PageSession log buffer and timestamp normalization (src/pageSession.ts),
the NetworkRecorder (src/networkRecorder.ts), the ConsoleStreamManager
(src/consoleStreamManager.ts), the OverlayManager (src/overlayManager.ts),
and the network_list_requests tool filter (src/tools/networkTools.ts).
JavaScript numbers are modelled as rationals, optional values as `Option`,
and the cooperative single-threaded event loop as sequential application of
atomic synchronous steps.
-/

namespace PageSessionM

/-- Log kinds, `type LogKind = 'console' | 'exception' | 'log'`. -/
inductive LogKind where
  | console
  | exception
  | log
deriving DecidableEq, Repr

/-- Data of a log entry before an id is assigned (`Omit<PageLogEntry, 'id'>`).
The `Date` timestamp is carried as its millisecond value. -/
structure EntryData where
  kind : LogKind
  level : String
  message : String
  timestamp : ℚ
  source : Option String := none
  url : Option String := none
deriving DecidableEq, Repr

/-- `PageLogEntry` from pageSession.ts. -/
structure PageLogEntry where
  id : Nat
  kind : LogKind
  level : String
  message : String
  timestamp : ℚ
  source : Option String := none
  url : Option String := none
deriving DecidableEq, Repr

/-- `MAX_BUFFERED_ENTRIES = 500`. -/
def MAX_BUFFERED_ENTRIES : Nat := 500

/-- The per-session mutable log state: `#entries` and `#nextId`. -/
structure LogState where
  entries : List PageLogEntry
  nextId : Nat
deriving DecidableEq, Repr

/-- Fresh session log state: `#entries = []`, `#nextId = 1`. -/
def initLogState : LogState := ⟨[], 1⟩

/-- Attach an id to entry data. -/
def withId (n : Nat) (e : EntryData) : PageLogEntry :=
  ⟨n, e.kind, e.level, e.message, e.timestamp, e.source, e.url⟩

/-- `PageSession.#recordEntry`: push `{...entry, id: #nextId++}` and, when the
buffer exceeds `MAX_BUFFERED_ENTRIES`, splice off the oldest overflow. -/
def recordEntry (s : LogState) (e : EntryData) : LogState :=
  let pushed := s.entries ++ [withId s.nextId e]
  let trimmed :=
    if pushed.length > MAX_BUFFERED_ENTRIES then
      pushed.drop (pushed.length - MAX_BUFFERED_ENTRIES)
    else pushed
  ⟨trimmed, s.nextId + 1⟩

/-- `PageSession.getEntries({limit = 20, kinds?, newestFirst = true})`:
filter by kind set when a non-empty one is given, keep the most recent
`limit` entries, reverse when `newestFirst`. -/
def getEntries (s : LogState) (limit : Nat := 20) (kinds : Option (List LogKind) := none)
    (newestFirst : Bool := true) : List PageLogEntry :=
  let subset :=
    match kinds with
    | some ks =>
      if ks.length ≠ 0 then s.entries.filter (fun (e : PageLogEntry) => ks.contains e.kind)
      else s.entries
    | none => s.entries
  let slice := subset.drop (subset.length - limit)
  if newestFirst then slice.reverse else slice

/-- `PageSession.clearEntries()`. -/
def clearEntries (_s : LogState) : LogState := ⟨[], 1⟩

/-- Run a sequence of log-producing events through `#recordEntry`. -/
def runLog (s : LogState) (es : List EntryData) : LogState :=
  es.foldl recordEntry s

/-- The full history of entries that `#recordEntry` would assign starting at
id `n`: the k-th event gets id `n + k`. -/
def histFrom (n : Nat) : List EntryData → List PageLogEntry
  | [] => []
  | e :: es => withId n e :: histFrom (n + 1) es

/-- A concrete console entry used to exercise the buffer. -/
def sampleEntry : EntryData :=
  { kind := .console, level := "log", message := "m", timestamp := 0 }

/-- `PageSession.#timestampFromSeconds`: classify a finite protocol timestamp
purely by magnitude.  `none` stands for a missing or non-finite value, for
which `new Date()` (the current time `now`) is produced.  The returned
rational is the millisecond value of the produced `Date`. -/
def timestampFromSeconds (value : Option ℚ) (now : ℚ) : ℚ :=
  match value with
  | none => now
  | some v =>
    if v > 1000000000000 then v
    else if v > 1000000 then v / 1000
    else v * 1000

/-- Modelled from the spec: the timestamp normalization as §4.1 documents it —
values > 1e12 are already epoch milliseconds, values > 1e6 are seconds
needing ×1000, otherwise seconds (×1000); missing or non-finite gives the
current time. -/
def timestampFromSecondsSpec (value : Option ℚ) (now : ℚ) : ℚ :=
  match value with
  | none => now
  | some v =>
    if v > 1000000000000 then v
    else if v > 1000000 then v * 1000
    else v * 1000

end PageSessionM

namespace NetworkM

/-- Header maps (`Record<string, unknown>`) as association lists of strings. -/
def Headers := List (String × String)
deriving DecidableEq, Repr

/-- `NetworkRequestRecord` from networkRecorder.ts; optional TypeScript fields
become `Option`. -/
structure NetworkRequestRecord where
  requestId : String
  url : String
  method : String
  resourceType : Option String := none
  initiatorType : Option String := none
  startTime : ℚ
  wallTime : Option ℚ := none
  status : Option ℚ := none
  statusText : Option String := none
  mimeType : Option String := none
  encodedDataLength : Option ℚ := none
  requestHeaders : Option Headers := none
  responseHeaders : Option Headers := none
  fromCache : Option Bool := none
  endTime : Option ℚ := none
  errorText : Option String := none
  requestBodySize : Option ℚ := none
  responseBodySize : Option ℚ := none
deriving DecidableEq, Repr

/-- Lookup in the insertion-ordered `Map<string, NetworkRequestRecord>`. -/
def getRec : List (String × NetworkRequestRecord) → String → Option NetworkRequestRecord
  | [], _ => none
  | (k, r) :: rest, key => if k = key then some r else getRec rest key

/-- `Map.set` semantics: replace an existing binding in place, else append. -/
def setRec : List (String × NetworkRequestRecord) → String → NetworkRequestRecord →
    List (String × NetworkRequestRecord)
  | [], key, v => [(key, v)]
  | (k, r) :: rest, key, v =>
    if k = key then (key, v) :: rest else (k, r) :: setRec rest key v

/-- The mutable state of a `NetworkRecorder`: `#capturing`, `#requests`,
`#order`. -/
structure RecorderState where
  capturing : Bool
  requests : List (String × NetworkRequestRecord)
  order : List String
deriving DecidableEq, Repr

/-- A freshly constructed recorder. -/
def initRecorder : RecorderState := ⟨false, [], []⟩

/-- State effect of `NetworkRecorder.start()`: clear `#requests` and `#order`,
set `#capturing = true` (the protocol enable call has no state effect here). -/
def startRecorder (_s : RecorderState) : RecorderState := ⟨true, [], []⟩

/-- `NetworkRecorder.stop()`: only flips `#capturing`. -/
def stopRecorder (s : RecorderState) : RecorderState := { s with capturing := false }

/-- `NetworkRecorder.clear()`. -/
def clearRecorder (s : RecorderState) : RecorderState := { s with requests := [], order := [] }

/-- `NetworkRecorder.getRequests()`: map ids in first-seen order through the
record map, dropping ids with no record. -/
def getRequests (s : RecorderState) : List NetworkRequestRecord :=
  s.order.filterMap (getRec s.requests)

/-- The default record built by `#ensureRecord` for an unseen request id;
`now` is `Date.now() / 1000` at the time of the event. -/
def defaultRecord (requestId : String) (now : ℚ) : NetworkRequestRecord :=
  { requestId := requestId, url := "", method := "GET", startTime := now }

/-- `NetworkRecorder.#ensureRecord`: look up the record for the id, creating
and registering a default one when absent; returns the state and record. -/
def ensureRecord (s : RecorderState) (requestId : String) (now : ℚ) :
    RecorderState × NetworkRequestRecord :=
  match getRec s.requests requestId with
  | some r => (s, r)
  | none =>
    let r := defaultRecord requestId now
    ({ s with requests := setRec s.requests requestId r, order := s.order ++ [requestId] }, r)

/-- Parameters of `Network.requestWillBeSent` as the handler reads them;
fields the protocol marks optional (or read through `?.`) are `Option`. -/
structure RequestWillBeSentParams where
  requestId : String
  url : String
  method : String
  resourceType : Option String := none
  initiatorType : Option String := none
  timestamp : Option ℚ := none
  wallTime : Option ℚ := none
  headers : Headers := []
  hasPostData : Bool := false
  postDataLength : Option ℚ := none
deriving DecidableEq, Repr

/-- Parameters of `Network.responseReceived` as the handler reads them. -/
structure ResponseReceivedParams where
  requestId : String
  status : ℚ
  statusText : String
  mimeType : String
  headers : Headers := []
  fromDiskCache : Option Bool := none
  fromServiceWorker : Option Bool := none
deriving DecidableEq, Repr

/-- Parameters of `Network.loadingFinished` as the handler reads them. -/
structure LoadingFinishedParams where
  requestId : String
  encodedDataLength : ℚ
  timestamp : Option ℚ := none
deriving DecidableEq, Repr

/-- Parameters of `Network.loadingFailed` as the handler reads them. -/
structure LoadingFailedParams where
  requestId : String
  errorText : Option String := none
  timestamp : Option ℚ := none
deriving DecidableEq, Repr

/-- The four network lifecycle events consumed by `#attachListeners`. -/
inductive NetworkEvent where
  | requestWillBeSent (p : RequestWillBeSentParams)
  | responseReceived (p : ResponseReceivedParams)
  | loadingFinished (p : LoadingFinishedParams)
  | loadingFailed (p : LoadingFailedParams)
deriving DecidableEq, Repr

/-- The request id an event refers to. -/
def NetworkEvent.requestId : NetworkEvent → String
  | .requestWillBeSent p => p.requestId
  | .responseReceived p => p.requestId
  | .loadingFinished p => p.requestId
  | .loadingFailed p => p.requestId

/-- Field merge done by the `Network.requestWillBeSent` handler body. -/
def applyRequestWillBeSent (r : NetworkRequestRecord) (p : RequestWillBeSentParams) :
    NetworkRequestRecord :=
  { r with
    url := p.url
    method := p.method
    resourceType := p.resourceType
    initiatorType := p.initiatorType
    startTime := p.timestamp.getD r.startTime
    wallTime := p.wallTime
    requestHeaders := some p.headers
    requestBodySize := if p.hasPostData then p.postDataLength else r.requestBodySize }

/-- JavaScript `a ?? b` where `b` itself may be undefined. -/
def jsNullish (a b : Option ℚ) : Option ℚ :=
  match a with
  | some t => some t
  | none => b

/-- JavaScript `a || b` on two possibly-undefined booleans. -/
def jsOrOpt (a b : Option Bool) : Option Bool :=
  match a with
  | some true => some true
  | _ => b

/-- Field merge done by the `Network.responseReceived` handler body. -/
def applyResponseReceived (r : NetworkRequestRecord) (p : ResponseReceivedParams) :
    NetworkRequestRecord :=
  { r with
    status := some p.status
    statusText := some p.statusText
    mimeType := some p.mimeType
    responseHeaders := some p.headers
    fromCache := jsOrOpt p.fromDiskCache p.fromServiceWorker }

/-- Field merge done by the `Network.loadingFinished` handler body. -/
def applyLoadingFinished (r : NetworkRequestRecord) (p : LoadingFinishedParams) :
    NetworkRequestRecord :=
  { r with
    encodedDataLength := some p.encodedDataLength
    responseBodySize := some p.encodedDataLength
    endTime := jsNullish p.timestamp r.endTime }

/-- Field merge done by the `Network.loadingFailed` handler body. -/
def applyLoadingFailed (r : NetworkRequestRecord) (p : LoadingFailedParams) :
    NetworkRequestRecord :=
  { r with
    errorText := some (p.errorText.getD "Request failed")
    endTime := jsNullish p.timestamp r.endTime }

/-- Dispatch of an event's field merge to the handler for its kind. -/
def mergeEvent (r : NetworkRequestRecord) : NetworkEvent → NetworkRequestRecord
  | .requestWillBeSent p => applyRequestWillBeSent r p
  | .responseReceived p => applyResponseReceived r p
  | .loadingFinished p => applyLoadingFinished r p
  | .loadingFailed p => applyLoadingFailed r p

/-- One attached listener invocation: each of the four handlers returns at
once while `#capturing` is false; otherwise it ensures the record for the
event's request id and merges the event's fields. -/
def networkStep (s : RecorderState) (now : ℚ) (ev : NetworkEvent) : RecorderState :=
  if !s.capturing then s
  else
    let (s₁, r) := ensureRecord s ev.requestId now
    { s₁ with requests := setRec s₁.requests ev.requestId (mergeEvent r ev) }

/-- Arguments of the `network_list_requests` tool after schema validation
(networkTools.ts); `includeHeaders` only affects formatting and is omitted. -/
structure ListArgs where
  limit : Nat := 20
  methods : Option (List String) := none
  onlyFailed : Bool := false
  resourceTypes : Option (List String) := none
deriving DecidableEq, Repr

/-- JavaScript truthiness of `request.errorText` negated:
`!request.errorText` is true when the field is undefined or empty. -/
def errorTextFalsy (r : NetworkRequestRecord) : Bool :=
  match r.errorText with
  | none => true
  | some s => s = ""

/-- JavaScript `request.status && request.status < 400`. -/
def statusTruthyBelow400 (r : NetworkRequestRecord) : Bool :=
  match r.status with
  | none => false
  | some q => q ≠ 0 && q < 400

/-- The handler's first early return:
`methods?.length && !methods.includes(request.method)`. -/
def methodsExclude (args : ListArgs) (r : NetworkRequestRecord) : Bool :=
  match args.methods with
  | some ms => ms.length ≠ 0 && !(ms.contains r.method)
  | none => false

/-- The handler's second early return:
`onlyFailed && !request.errorText && request.status && request.status < 400`. -/
def onlyFailedExclude (args : ListArgs) (r : NetworkRequestRecord) : Bool :=
  args.onlyFailed && errorTextFalsy r && statusTruthyBelow400 r

/-- The handler's third early return: `resourceTypes?.length &&
request.resourceType && !resourceTypes.includes(request.resourceType)`. -/
def resourceTypesExclude (args : ListArgs) (r : NetworkRequestRecord) : Bool :=
  match args.resourceTypes with
  | some ts =>
    ts.length ≠ 0 &&
      (match r.resourceType with
       | some t => t ≠ "" && !(ts.contains t)
       | none => false)
  | none => false

/-- The filter body of the `network_list_requests` handler: three early
`return false` tests, in source order, each guarded by JavaScript truthiness
of the optional operands. -/
def passesFilters (args : ListArgs) (r : NetworkRequestRecord) : Bool :=
  if methodsExclude args r then false
  else if onlyFailedExclude args r then false
  else if resourceTypesExclude args r then false
  else true

/-- The records selected by `network_list_requests`:
`recorder.getRequests().filter(...).slice(0, limit)`. -/
def listRequests (s : RecorderState) (args : ListArgs) : List NetworkRequestRecord :=
  ((getRequests s).filter (passesFilters args)).take args.limit

/-- Modelled from the spec: the filter of the network listing contract as the
spec words it — method membership, resourceType membership, and, when
`onlyFailed` is set, status ≥ 400 or a non-empty error text. -/
def passesFiltersClaim (args : ListArgs) (r : NetworkRequestRecord) : Bool :=
  (match args.methods with
   | some ms => ms.contains r.method
   | none => true) &&
  (match args.resourceTypes with
   | some ts =>
     match r.resourceType with
     | some t => ts.contains t
     | none => false
   | none => true) &&
  (!args.onlyFailed ||
    (match r.status with
     | some q => decide (400 ≤ q)
     | none => false) ||
    (match r.errorText with
     | some e => e ≠ ""
     | none => false))

/-- The amended, declarative reading of the handler's filter: a filter only
disqualifies a record it can positively test — an empty or missing filter
list passes everything, a record with no (or empty) resourceType passes the
resourceTypes filter, and `onlyFailed` keeps any record except one with a
falsy error text and a truthy status below 400. -/
def AmendedPass (args : ListArgs) (r : NetworkRequestRecord) : Prop :=
  (match args.methods with
   | some ms => ms = [] ∨ r.method ∈ ms
   | none => True) ∧
  (args.onlyFailed = true →
    (∀ q : ℚ, r.status = some q → q ≠ 0 → 400 ≤ q) ∨
    (∃ e, r.errorText = some e ∧ e ≠ "")) ∧
  (match args.resourceTypes with
   | some ts => ts = [] ∨ ∀ t, r.resourceType = some t → t ≠ "" → t ∈ ts
   | none => True)

/-- A request event for a request that never completes (no response, no
failure): used to probe the `onlyFailed` filter on a pending record. -/
def pendingReq : RequestWillBeSentParams :=
  { requestId := "r1", url := "https://a/", method := "GET" }

/-- Recorder state holding exactly the pending record of `pendingReq`. -/
def pendingState : RecorderState :=
  networkStep (startRecorder initRecorder) 0 (.requestWillBeSent pendingReq)

/-- The record `pendingState` holds for "r1". -/
def pendingRecord : NetworkRequestRecord :=
  applyRequestWillBeSent (defaultRecord "r1" 0) pendingReq

/-- A response event used to probe out-of-order lifecycle arrival. -/
def respX : ResponseReceivedParams :=
  { requestId := "x", status := 200, statusText := "OK", mimeType := "text/html" }

/-- The request event matching `respX`, delivered second. -/
def reqX : RequestWillBeSentParams :=
  { requestId := "x", url := "https://a/", method := "GET" }

/-- Recorder state after `respX` then `reqX` on a freshly started recorder. -/
def outOfOrderState : RecorderState :=
  networkStep (networkStep (startRecorder initRecorder) 1 (.responseReceived respX)) 2
    (.requestWillBeSent reqX)

/-- First sending of a redirected request: the protocol reports a resource
type. -/
def redirectReq1 : RequestWillBeSentParams :=
  { requestId := "r2", url := "https://a/one", method := "GET",
    resourceType := some "Document", timestamp := some 5 }

/-- Second sending of the same request after the redirect, with the optional
`type` field absent. -/
def redirectReq2 : RequestWillBeSentParams :=
  { requestId := "r2", url := "https://a/two", method := "GET",
    resourceType := none, timestamp := none }

/-- A repeat sending of "r1" with every optional field absent. -/
def reqAgain : RequestWillBeSentParams :=
  { requestId := "r1", url := "https://a/again", method := "GET" }

/-- A response for "r1". -/
def respR1 : ResponseReceivedParams :=
  { requestId := "r1", status := 200, statusText := "OK", mimeType := "text/html" }

/-- A `loadingFinished` for "r1" with no timestamp. -/
def finNoTs : LoadingFinishedParams := { requestId := "r1", encodedDataLength := 9 }

/-- A `loadingFailed` for "r1" with no timestamp and no error text. -/
def failNoTs : LoadingFailedParams := { requestId := "r1" }

/-- Recorder state after the first sending of the redirected request. -/
def redirectState1 : RecorderState :=
  networkStep (startRecorder initRecorder) 0 (.requestWillBeSent redirectReq1)

/-- Recorder state after both sendings of the redirected request. -/
def redirectState2 : RecorderState :=
  networkStep redirectState1 0 (.requestWillBeSent redirectReq2)

end NetworkM

namespace SessionConn

/-- The connection-caching fields of `PageSession`: `#client` and
`#clientPromise`, modelled as identifiers.  `attemptsStarted` counts the
calls to `#connectInternal` (physical connection attempts); a fresh attempt
is identified by the value of the counter when it starts. -/
structure ConnState where
  client : Option Nat := none
  clientPromise : Option Nat := none
  attemptsStarted : Nat := 0
deriving DecidableEq, Repr

/-- A freshly constructed session: no client, no pending attempt. -/
def initConn : ConnState := {}

/-- What a caller of `#ensureClient` observes at the end of the synchronous
prefix of the method: either the cached `#client` (returned without any
await), or the identifier of the attempt whose promise it will await. -/
inductive EnsureOutcome where
  | cached (c : Nat)
  | awaiting (attempt : Nat)
deriving DecidableEq, Repr

/-- The synchronous prefix of `PageSession.#ensureClient`, which runs
atomically under the cooperative single-threaded model: return the cached
client if present; otherwise reuse the cached in-flight attempt or start
`#connectInternal()` and cache its promise. -/
def ensureClientSync (s : ConnState) : ConnState × EnsureOutcome :=
  match s.client with
  | some c => (s, .cached c)
  | none =>
    match s.clientPromise with
    | some p => (s, .awaiting p)
    | none =>
      ({ s with clientPromise := some s.attemptsStarted,
                attemptsStarted := s.attemptsStarted + 1 },
       .awaiting s.attemptsStarted)

/-- `n` callers whose `#ensureClient` calls all begin before any connection
attempt resolves: each runs the synchronous prefix in turn. -/
def callersRun (s : ConnState) : Nat → ConnState × List EnsureOutcome
  | 0 => (s, [])
  | n + 1 =>
    let (s₁, o) := ensureClientSync s
    let (s₂, os) := callersRun s₁ n
    (s₂, o :: os)

/-- A full run of `PageSession.#ensureClient` once the awaited attempt has
settled; `res` gives each attempt's outcome (the connected client, or the
connect error).  A resolved attempt stores `#client`; a rejected one leaves
the state untouched — in particular `#clientPromise` stays cached. -/
def ensureClient (s : ConnState) (res : Nat → Except String Nat) :
    ConnState × Except String Nat :=
  let (s₁, out) := ensureClientSync s
  match out with
  | .cached c => (s₁, .ok c)
  | .awaiting p =>
    match res p with
    | .ok c => ({ s₁ with client := some c }, .ok c)
    | .error e => (s₁, .error e)

/-- Iterate `ensureClient` `n` times (successive session operations that each
need the client), collecting the results. -/
def ensureClientRuns (s : ConnState) (res : Nat → Except String Nat) :
    Nat → ConnState × List (Except String Nat)
  | 0 => (s, [])
  | n + 1 =>
    let (s₁, o) := ensureClient s res
    let (s₂, os) := ensureClientRuns s₁ res n
    (s₂, o :: os)

/-- State effect of `PageSession.dispose()`: clear both cache fields (the
close of the old client is best-effort and has no state effect here). -/
def dispose (s : ConnState) : ConnState := { s with client := none, clientPromise := none }

/-- State effect of the disconnect handler that `#connectInternal` registers
on the freshly connected client — it can therefore only ever fire for an
attempt whose physical connect resolved. -/
def disconnectReset (s : ConnState) : ConnState :=
  { s with client := none, clientPromise := none }

end SessionConn

namespace ConsoleM

/-- The five stream-level buckets of consoleStreamManager.ts. -/
inductive StreamLevel where
  | log
  | debug
  | info
  | warn
  | error
deriving DecidableEq, Repr

/-- `ConsoleStreamOptions` before normalization. -/
structure ConsoleStreamOptions where
  levels : Option (List StreamLevel) := none
  includeExceptions : Option Bool := none
  includeStack : Option Bool := none
deriving DecidableEq, Repr

/-- `DEFAULT_LEVELS`. -/
def DEFAULT_LEVELS : List StreamLevel := [.log, .debug, .info, .warn, .error]

/-- A subscribe call with every option omitted. -/
def emptyStreamOptions : ConsoleStreamOptions :=
  { levels := none, includeExceptions := none, includeStack := none }

/-- The normalization performed at the top of `subscribe`. -/
def normalizeOptions (o : ConsoleStreamOptions) : ConsoleStreamOptions :=
  { levels := some (match o.levels with
      | some ls => if ls.length ≠ 0 then ls else DEFAULT_LEVELS
      | none => DEFAULT_LEVELS)
    includeExceptions := some (o.includeExceptions.getD true)
    includeStack := some (o.includeStack.getD false) }

/-- `ConsoleStreamManager` state: the stored subscription, whether the two
private listener fields are set, and how many listeners of each class are
actually attached to the client (each `client.on` call adds one). -/
structure StreamState where
  subscription : Option ConsoleStreamOptions := none
  consoleAttached : Bool := false
  exceptionAttached : Bool := false
  consoleListeners : Nat := 0
  exceptionListeners : Nat := 0
deriving DecidableEq, Repr

/-- A freshly constructed manager. -/
def initStream : StreamState := {}

/-- `ConsoleStreamManager.subscribe(options)`: store the normalized options,
then attach each listener only when its private field is still unset. -/
def subscribe (s : StreamState) (o : ConsoleStreamOptions) : StreamState :=
  let s₁ := { s with subscription := some (normalizeOptions o) }
  let s₂ :=
    if s₁.consoleAttached then s₁
    else { s₁ with consoleAttached := true, consoleListeners := s₁.consoleListeners + 1 }
  if s₂.exceptionAttached then s₂
  else { s₂ with exceptionAttached := true, exceptionListeners := s₂.exceptionListeners + 1 }

/-- `ConsoleStreamManager.unsubscribe()`. -/
def unsubscribe (s : StreamState) : StreamState :=
  let s₁ :=
    if s.consoleAttached then
      { s with consoleAttached := false, consoleListeners := s.consoleListeners - 1 }
    else s
  let s₂ :=
    if s₁.exceptionAttached then
      { s₁ with exceptionAttached := false, exceptionListeners := s₁.exceptionListeners - 1 }
    else s₁
  { s₂ with subscription := none }

/-- Apply a sequence of `subscribe` calls in order. -/
def subscribeMany (s : StreamState) (os : List ConsoleStreamOptions) : StreamState :=
  os.foldl subscribe s

/-- `mapConsoleTypeToStreamLevel` on the protocol's console type string. -/
def mapConsoleTypeToStreamLevel (t : String) : StreamLevel :=
  if t = "assert" || t = "error" then .error
  else if t = "warning" then .warn
  else if t = "debug" then .debug
  else if t = "info" then .info
  else .log

/-- Whether `#handleConsoleEvent` reaches `#sendLogging` for a console event
of the given type: a subscription must exist and contain the mapped level. -/
def consoleEventPasses (s : StreamState) (t : String) : Bool :=
  match s.subscription with
  | none => false
  | some sub =>
    match sub.levels with
    | some ls => ls.contains (mapConsoleTypeToStreamLevel t)
    | none => false

/-- Whether `#handleException` reaches `#sendLogging`. -/
def exceptionEventPasses (s : StreamState) : Bool :=
  match s.subscription with
  | none => false
  | some sub => sub.includeExceptions.getD false

/-- Number of leveled notifications produced for one upstream console event:
every attached console listener runs the handler once. -/
def consoleNotifications (s : StreamState) (t : String) : Nat :=
  s.consoleListeners * (if consoleEventPasses s t then 1 else 0)

/-- Number of leveled notifications produced for one upstream exception
event. -/
def exceptionNotifications (s : StreamState) : Nat :=
  s.exceptionListeners * (if exceptionEventPasses s then 1 else 0)

end ConsoleM

namespace OverlayM

/-- Observable actions of the OverlayManager, recorded in program order. -/
inductive OverlayAction where
  | cancelTimer (t : Nat)
  | restoreNode (n : Nat)
  | hideHighlight
  | applyHighlight (n : Nat)
  | decorate (n : Nat)
  | armTimer (t : Nat) (durationMs : ℚ)
deriving DecidableEq, Repr

/-- `OverlayManager` state: `#timer`, the `#decoratedNodes` set (kept as a
duplicate-free list) and whether `#client` is set. -/
structure OverlayState where
  timer : Option Nat := none
  decoratedNodes : List Nat := []
  hasClient : Bool := false
deriving DecidableEq, Repr

/-- A freshly constructed manager. -/
def initOverlay : OverlayState := {}

/-- `OverlayManager.hide()`: clear any pending timer, restore every decorated
node (via `#restoreDecorations`, which obtains the client when the set is
non-empty), then hide the remote highlight when a client exists. -/
def hide (s : OverlayState) : OverlayState × List OverlayAction :=
  let (s₁, tr₁) :=
    match s.timer with
    | some t => ({ s with timer := none }, [OverlayAction.cancelTimer t])
    | none => (s, [])
  let (s₂, tr₂) :=
    if s₁.decoratedNodes.length = 0 then (s₁, [])
    else ({ s₁ with decoratedNodes := [], hasClient := true },
          s₁.decoratedNodes.map OverlayAction.restoreNode)
  if s₂.hasClient then (s₂, tr₁ ++ tr₂ ++ [OverlayAction.hideHighlight])
  else (s₂, tr₁ ++ tr₂)

/-- `OverlayManager.highlight` on the explicit-node-id path: hide first, get
the client, apply the remote highlight, best-effort decorate the element
(`decorationSucceeds` tells whether `Runtime.callFunctionOn` succeeded), and
arm the auto-hide timer when the duration is positive.  `timerId` identifies
the timer `setTimeout` would return. -/
def highlight (s : OverlayState) (nodeId : Nat) (durationMs : ℚ) (timerId : Nat)
    (decorationSucceeds : Bool) : OverlayState × List OverlayAction :=
  let (s₁, tr₁) := hide s
  let s₂ := { s₁ with hasClient := true }
  let (s₃, tr₃) :=
    if decorationSucceeds then
      ({ s₂ with decoratedNodes :=
           if s₂.decoratedNodes.contains nodeId then s₂.decoratedNodes
           else s₂.decoratedNodes ++ [nodeId] },
       [OverlayAction.decorate nodeId])
    else (s₂, [])
  let (s₄, tr₄) :=
    if durationMs > 0 then
      ({ s₃ with timer := some timerId }, [OverlayAction.armTimer timerId durationMs])
    else (s₃, [])
  (s₄, tr₁ ++ [OverlayAction.applyHighlight nodeId] ++ tr₃ ++ tr₄)

end OverlayM

open PageSessionM NetworkM SessionConn ConsoleM OverlayM

section Lemmas

/-- Looking up the key just set finds the value set. -/
theorem getRec_setRec_self (m : List (String × NetworkRequestRecord)) (k : String)
    (r : NetworkRequestRecord) : getRec (setRec m k r) k = some r := by
  induction m with
  | nil => simp [setRec, getRec]
  | cons hd tl ih =>
    obtain ⟨k', r'⟩ := hd
    by_cases h : k' = k
    · simp [setRec, getRec, h]
    · simp [setRec, getRec, h, ih]

/-- Looking up another key is unaffected by `setRec`. -/
theorem getRec_setRec_ne (m : List (String × NetworkRequestRecord)) (k k' : String)
    (r : NetworkRequestRecord) (h : k' ≠ k) : getRec (setRec m k r) k' = getRec m k' := by
  induction m with
  | nil => simp [setRec, getRec, Ne.symm h]
  | cons hd tl ih =>
    obtain ⟨k₀, r₀⟩ := hd
    by_cases h₀ : k₀ = k
    · subst h₀
      simp [setRec, getRec, Ne.symm h]
    · simp [setRec, getRec, h₀, ih]

/-- Setting the same key twice keeps only the second value. -/
theorem setRec_setRec_same (m : List (String × NetworkRequestRecord)) (k : String)
    (a b : NetworkRequestRecord) : setRec (setRec m k a) k b = setRec m k b := by
  induction m with
  | nil => simp [setRec]
  | cons hd tl ih =>
    obtain ⟨k₀, r₀⟩ := hd
    by_cases h : k₀ = k
    · simp [setRec, h]
    · simp [setRec, h, ih]

/-- A capturing step on an unseen request id registers the id once and stores
the merge of the event into the default record. -/
theorem networkStep_absent (s : RecorderState) (now : ℚ) (ev : NetworkEvent)
    (hcap : s.capturing = true) (h : getRec s.requests ev.requestId = none) :
    networkStep s now ev =
      { s with
        requests := setRec s.requests ev.requestId
          (mergeEvent (defaultRecord ev.requestId now) ev),
        order := s.order ++ [ev.requestId] } := by
  simp only [networkStep, hcap, Bool.not_true, Bool.false_eq_true, if_false, ensureRecord, h,
    setRec_setRec_same]

/-- A capturing step on a request id that already has a record leaves the
order unchanged and stores the merge of the event into that record. -/
theorem networkStep_present (s : RecorderState) (now : ℚ) (ev : NetworkEvent)
    (r : NetworkRequestRecord) (hcap : s.capturing = true)
    (h : getRec s.requests ev.requestId = some r) :
    networkStep s now ev =
      { s with requests := setRec s.requests ev.requestId (mergeEvent r ev) } := by
  simp only [networkStep, hcap, Bool.not_true, Bool.false_eq_true, if_false, ensureRecord, h]

/-- `passesFilters` holds exactly when none of the three early returns
fires. -/
theorem passesFilters_eq_true_iff (args : ListArgs) (r : NetworkRequestRecord) :
    passesFilters args r = true ↔
      methodsExclude args r = false ∧ onlyFailedExclude args r = false ∧
        resourceTypesExclude args r = false := by
  cases h₁ : methodsExclude args r <;> cases h₂ : onlyFailedExclude args r <;>
    cases h₃ : resourceTypesExclude args r <;> simp [passesFilters, h₁, h₂, h₃]

/-- Declarative reading of the methods early return not firing. -/
theorem methodsExclude_eq_false_iff (args : ListArgs) (r : NetworkRequestRecord) :
    methodsExclude args r = false ↔
      (match args.methods with
       | some ms => ms = [] ∨ r.method ∈ ms
       | none => True) := by
  rcases args with ⟨lim, ms, fail, ts⟩
  cases ms with
  | none => simp [methodsExclude]
  | some l =>
    simp [methodsExclude, List.length_eq_zero]
    tauto

/-- Declarative reading of `request.status && request.status < 400` being
falsy. -/
theorem statusTruthyBelow400_eq_false_iff (r : NetworkRequestRecord) :
    statusTruthyBelow400 r = false ↔ ∀ q : ℚ, r.status = some q → q ≠ 0 → 400 ≤ q := by
  cases h : r.status with
  | none => simp [statusTruthyBelow400, h]
  | some q =>
    simp only [statusTruthyBelow400, h, Option.some.injEq]
    constructor
    · intro hb q' hq hne
      subst hq
      rcases Bool.and_eq_false_iff.mp hb with hb' | hb'
      · exact absurd (of_decide_eq_false hb') (by simpa using hne)
      · exact not_lt.mp (of_decide_eq_false hb')
    · intro hall
      by_cases hz : q = 0
      · simp [hz]
      · simp [hz, not_lt.mpr (hall q rfl hz)]

/-- Declarative reading of `!request.errorText` being false. -/
theorem errorTextFalsy_eq_false_iff (r : NetworkRequestRecord) :
    errorTextFalsy r = false ↔ ∃ e, r.errorText = some e ∧ e ≠ "" := by
  cases h : r.errorText with
  | none => simp [errorTextFalsy, h]
  | some s => simp [errorTextFalsy, h]

/-- Declarative reading of the onlyFailed early return not firing. -/
theorem onlyFailedExclude_eq_false_iff (args : ListArgs) (r : NetworkRequestRecord) :
    onlyFailedExclude args r = false ↔
      (args.onlyFailed = true →
        (∀ q : ℚ, r.status = some q → q ≠ 0 → 400 ≤ q) ∨
          ∃ e, r.errorText = some e ∧ e ≠ "") := by
  cases hf : args.onlyFailed with
  | false => simp [onlyFailedExclude, hf]
  | true =>
    rw [onlyFailedExclude, hf]
    cases he : errorTextFalsy r <;> cases hs : statusTruthyBelow400 r <;>
      simp [he, hs, ← statusTruthyBelow400_eq_false_iff, ← errorTextFalsy_eq_false_iff]

/-- Declarative reading of the resourceTypes early return not firing. -/
theorem resourceTypesExclude_eq_false_iff (args : ListArgs) (r : NetworkRequestRecord) :
    resourceTypesExclude args r = false ↔
      (match args.resourceTypes with
       | some ts => ts = [] ∨ ∀ t, r.resourceType = some t → t ≠ "" → t ∈ ts
       | none => True) := by
  rcases args with ⟨lim, ms, fail, ts⟩
  cases ts with
  | none => simp [resourceTypesExclude]
  | some l =>
    cases h : r.resourceType with
    | none => simp [resourceTypesExclude, h, List.length_eq_zero]
    | some t =>
      simp [resourceTypesExclude, h, List.length_eq_zero]
      tauto

end Lemmas

/-- C4: while `#capturing` is false every lifecycle event leaves the recorder
state (hence `getRequests()`) unchanged, and `start()` resets the recorder to
an empty record set with `capturing = true` from any state — even without a
prior `stop()`. -/
theorem stopped_recorder_ignores_events :
    (∀ (s : RecorderState) (now : ℚ) (ev : NetworkEvent),
      s.capturing = false → networkStep s now ev = s) ∧
    (∀ (s : RecorderState) (now : ℚ) (ev : NetworkEvent),
      s.capturing = false → getRequests (networkStep s now ev) = getRequests s) ∧
    (∀ s : RecorderState, startRecorder s = { capturing := true, requests := [], order := [] }) := by
  have h₁ : ∀ (s : RecorderState) (now : ℚ) (ev : NetworkEvent),
      s.capturing = false → networkStep s now ev = s := by
    intro s now ev h
    simp [networkStep, h]
  exact ⟨h₁, fun s now ev h => by rw [h₁ s now ev h], fun s => rfl⟩

/-- Witness for C4: a `loadingFinished` event against a stopped recorder that
already holds a record changes nothing. -/
theorem stopped_recorder_ignores_events_witness :
    networkStep (stopRecorder pendingState) 7
        (.loadingFinished { requestId := "r1", encodedDataLength := 10 }) =
      stopRecorder pendingState :=
  stopped_recorder_ignores_events.1 (stopRecorder pendingState) 7
    (.loadingFinished { requestId := "r1", encodedDataLength := 10 }) rfl

/-- C3: while capturing, a `responseReceived` that arrives before the
`requestWillBeSent` for the same (previously unseen) request id still yields
exactly one record for that id — registered once in the first-seen order —
and after both events the record carries the request event's url, method and
request headers together with the response event's status, statusText,
mimeType and response headers. -/
theorem response_before_request_one_record
    (s : RecorderState) (now₁ now₂ : ℚ)
    (pr : ResponseReceivedParams) (pq : RequestWillBeSentParams)
    (hcap : s.capturing = true)
    (hid : pq.requestId = pr.requestId)
    (habsent : getRec s.requests pr.requestId = none)
    (horder : pr.requestId ∉ s.order) :
    ∃ r : NetworkRequestRecord,
      getRec (networkStep (networkStep s now₁ (.responseReceived pr)) now₂
          (.requestWillBeSent pq)).requests pr.requestId = some r ∧
      (networkStep (networkStep s now₁ (.responseReceived pr)) now₂
          (.requestWillBeSent pq)).order.count pr.requestId = 1 ∧
      r.url = pq.url ∧ r.method = pq.method ∧ r.requestHeaders = some pq.headers ∧
      r.status = some pr.status ∧ r.statusText = some pr.statusText ∧
      r.mimeType = some pr.mimeType ∧ r.responseHeaders = some pr.headers := by
  have hstep₁ := networkStep_absent s now₁ (.responseReceived pr) hcap habsent
  set r₁ := mergeEvent (defaultRecord pr.requestId now₁) (.responseReceived pr) with hr₁
  have hsome : getRec (networkStep s now₁ (.responseReceived pr)).requests
      (NetworkEvent.requestWillBeSent pq).requestId = some r₁ := by
    rw [hstep₁]
    show getRec (setRec s.requests pr.requestId r₁) pq.requestId = some r₁
    rw [hid]
    exact getRec_setRec_self _ _ _
  have hstep₂ := networkStep_present (networkStep s now₁ (.responseReceived pr)) now₂
    (.requestWillBeSent pq) r₁ (by rw [hstep₁]; exact hcap) hsome
  refine ⟨mergeEvent r₁ (.requestWillBeSent pq), ?_, ?_, rfl, rfl, rfl, rfl, rfl, rfl, rfl⟩
  · rw [hstep₂, hstep₁]
    show getRec (setRec (setRec s.requests pr.requestId r₁) pq.requestId _) pr.requestId =
      some _
    rw [hid, setRec_setRec_same]
    exact getRec_setRec_self _ _ _
  · rw [hstep₂, hstep₁]
    show (s.order ++ [pr.requestId]).count pr.requestId = 1
    rw [List.count_append, List.count_eq_zero.mpr horder]
    simp

/-- Witness for C3: a 200 response for "x" arriving before its request event
in a freshly started recorder. -/
theorem response_before_request_one_record_witness :
    ∃ r : NetworkRequestRecord,
      getRec outOfOrderState.requests "x" = some r ∧
      outOfOrderState.order.count "x" = 1 ∧
      r.url = reqX.url ∧ r.method = reqX.method ∧ r.requestHeaders = some reqX.headers ∧
      r.status = some respX.status ∧ r.statusText = some respX.statusText ∧
      r.mimeType = some respX.mimeType ∧ r.responseHeaders = some respX.headers :=
  response_before_request_one_record (startRecorder initRecorder) 1 2 respX reqX
    rfl rfl rfl (by simp [startRecorder])

/-- Counterexample to C8: a second `requestWillBeSent` for the same request id
(the redirect case the spec cites) whose optional `type` field is absent
overwrites the previously recorded resource type with an absent value. -/
theorem merge_overwrites_resourceType_with_absent :
    (getRec redirectState1.requests "r2").map NetworkRequestRecord.resourceType =
      some (some "Document") ∧
    (getRec redirectState2.requests "r2").map NetworkRequestRecord.resourceType =
      some none := by
  exact ⟨rfl, rfl⟩

/-- C8 (amended): a merge into an existing record touches only the fields its
handler mentions; `startTime` and `endTime` already on the record survive an
event lacking a timestamp, and the post-data size is untouched when the event
has no post data — but `resourceType`, `initiatorType` and `wallTime` (and
`requestBodySize` when `hasPostData` is set) are assigned unconditionally
from the event, absent or not. -/
theorem merge_preserves_present_fields
    (s : RecorderState) (now : ℚ) (r : NetworkRequestRecord)
    (p : RequestWillBeSentParams) (pr : ResponseReceivedParams)
    (pf : LoadingFinishedParams) (pl : LoadingFailedParams)
    (hcap : s.capturing = true)
    (hp : getRec s.requests p.requestId = some r) :
    ((networkStep s now (.requestWillBeSent p)).requests =
        setRec s.requests p.requestId (applyRequestWillBeSent r p) ∧
      (networkStep s now (.requestWillBeSent p)).order = s.order) ∧
    (p.timestamp = none → (applyRequestWillBeSent r p).startTime = r.startTime) ∧
    (p.hasPostData = false →
      (applyRequestWillBeSent r p).requestBodySize = r.requestBodySize) ∧
    ((applyRequestWillBeSent r p).status = r.status ∧
      (applyRequestWillBeSent r p).statusText = r.statusText ∧
      (applyRequestWillBeSent r p).mimeType = r.mimeType ∧
      (applyRequestWillBeSent r p).responseHeaders = r.responseHeaders ∧
      (applyRequestWillBeSent r p).encodedDataLength = r.encodedDataLength ∧
      (applyRequestWillBeSent r p).endTime = r.endTime ∧
      (applyRequestWillBeSent r p).errorText = r.errorText ∧
      (applyRequestWillBeSent r p).fromCache = r.fromCache) ∧
    ((applyResponseReceived r pr).url = r.url ∧
      (applyResponseReceived r pr).method = r.method ∧
      (applyResponseReceived r pr).startTime = r.startTime ∧
      (applyResponseReceived r pr).resourceType = r.resourceType ∧
      (applyResponseReceived r pr).requestHeaders = r.requestHeaders ∧
      (applyResponseReceived r pr).endTime = r.endTime ∧
      (applyResponseReceived r pr).errorText = r.errorText) ∧
    (pf.timestamp = none → (applyLoadingFinished r pf).endTime = r.endTime) ∧
    ((applyLoadingFinished r pf).url = r.url ∧
      (applyLoadingFinished r pf).method = r.method ∧
      (applyLoadingFinished r pf).startTime = r.startTime ∧
      (applyLoadingFinished r pf).resourceType = r.resourceType ∧
      (applyLoadingFinished r pf).status = r.status) ∧
    (pl.timestamp = none → (applyLoadingFailed r pl).endTime = r.endTime) ∧
    ((applyLoadingFailed r pl).url = r.url ∧
      (applyLoadingFailed r pl).method = r.method ∧
      (applyLoadingFailed r pl).startTime = r.startTime ∧
      (applyLoadingFailed r pl).status = r.status) := by
  refine ⟨⟨?_, ?_⟩, ?_, ?_, ⟨rfl, rfl, rfl, rfl, rfl, rfl, rfl, rfl⟩,
    ⟨rfl, rfl, rfl, rfl, rfl, rfl, rfl⟩, ?_, ⟨rfl, rfl, rfl, rfl, rfl⟩, ?_,
    ⟨rfl, rfl, rfl, rfl⟩⟩
  · rw [networkStep_present s now (.requestWillBeSent p) r hcap hp]
    rfl
  · rw [networkStep_present s now (.requestWillBeSent p) r hcap hp]
  · intro h; simp [applyRequestWillBeSent, h]
  · intro h; simp [applyRequestWillBeSent, h]
  · intro h; simp [applyLoadingFinished, jsNullish, h]
  · intro h; simp [applyLoadingFailed, jsNullish, h]

/-- Witness for C8 (amended), at the pending record of `pendingState` and
events for the same id that all lack their optional fields. -/
theorem merge_preserves_present_fields_witness :
    ((networkStep pendingState 3 (.requestWillBeSent reqAgain)).requests =
      setRec pendingState.requests "r1" (applyRequestWillBeSent pendingRecord reqAgain) ∧
      (networkStep pendingState 3 (.requestWillBeSent reqAgain)).order =
        pendingState.order) ∧
    (applyRequestWillBeSent pendingRecord reqAgain).startTime = pendingRecord.startTime ∧
    (applyRequestWillBeSent pendingRecord reqAgain).requestBodySize =
      pendingRecord.requestBodySize ∧
    (applyLoadingFinished pendingRecord finNoTs).endTime = pendingRecord.endTime ∧
    (applyLoadingFailed pendingRecord failNoTs).endTime = pendingRecord.endTime := by
  have h := merge_preserves_present_fields pendingState 3 pendingRecord
    reqAgain respR1 finNoTs failNoTs rfl rfl
  exact ⟨h.1, h.2.1 rfl, h.2.2.1 rfl, h.2.2.2.2.2.1 rfl, h.2.2.2.2.2.2.2.1 rfl⟩

/-- C9: at the failing input 2·10⁹ (an epoch-seconds timestamp, year 2033)
the code's middle magnitude band divides by 1000 — `new Date(value / 1000)` —
producing 2·10⁶ ms (January 1970), while the documented treatment of the band
(seconds needing ×1000) would produce 2·10¹². -/
theorem timestamp_middle_band_divides :
    timestampFromSeconds (some 2000000000) 0 = 2000000 ∧
    timestampFromSecondsSpec (some 2000000000) 0 = 2000000000000 ∧
    timestampFromSeconds (some 2000000000) 0 ≠
      timestampFromSecondsSpec (some 2000000000) 0 := by
  refine ⟨?_, ?_, ?_⟩ <;> norm_num [timestampFromSeconds, timestampFromSecondsSpec]

/-- Counterexample to C7: with `onlyFailed = true` and no other filters the
handler returns a pending record — no status, no error text — although the
claim's filter (status ≥ 400 or a non-empty error text) excludes it. -/
theorem onlyFailed_returns_pending_record :
    listRequests pendingState { onlyFailed := true } = [pendingRecord] ∧
    passesFiltersClaim { onlyFailed := true } pendingRecord = false := by
  exact ⟨rfl, rfl⟩

/-- C7 (amended): the listing operation returns, truncated to `limit` and in
first-seen order, exactly the records no given filter positively disqualifies:
an empty or missing filter list passes everything, `onlyFailed` keeps every
record except one with falsy error text and a truthy status below 400 (so
records with no status, status 0, or a non-empty error text stay), and the
resourceTypes filter passes records with no (or empty) resource type. -/
theorem list_requests_filter_semantics :
    (∀ (args : ListArgs) (r : NetworkRequestRecord),
      passesFilters args r = true ↔ AmendedPass args r) ∧
    (∀ (s : RecorderState) (args : ListArgs),
      listRequests s args = ((getRequests s).filter (passesFilters args)).take args.limit ∧
      (listRequests s args).Sublist (getRequests s) ∧
      (listRequests s args).length =
        min args.limit ((getRequests s).filter (passesFilters args)).length ∧
      ∀ r ∈ listRequests s args, AmendedPass args r) := by
  have hiff : ∀ (args : ListArgs) (r : NetworkRequestRecord),
      passesFilters args r = true ↔ AmendedPass args r := by
    intro args r
    rw [passesFilters_eq_true_iff]
    unfold AmendedPass
    exact and_congr (methodsExclude_eq_false_iff args r)
      (and_congr (onlyFailedExclude_eq_false_iff args r)
        (resourceTypesExclude_eq_false_iff args r))
  refine ⟨hiff, fun s args => ⟨rfl, ?_, ?_, ?_⟩⟩
  · exact (List.take_sublist _ _).trans (List.filter_sublist _)
  · simp [listRequests, List.length_take]
  · intro r hr
    have hmem : r ∈ (getRequests s).filter (passesFilters args) :=
      List.take_subset _ _ hr
    exact (hiff args r).mp (List.of_mem_filter hmem)

/-- When a pending attempt is already cached and no client exists, every
further caller's synchronous prefix changes nothing and awaits that same
attempt. -/
theorem callersRun_pending (p : Nat) :
    ∀ (n : Nat) (s : ConnState), s.client = none → s.clientPromise = some p →
      callersRun s n = (s, List.replicate n (.awaiting p)) := by
  intro n
  induction n with
  | zero => intro s hc hp; simp [callersRun]
  | succ m ih =>
    intro s hc hp
    have hsync : ensureClientSync s = (s, .awaiting p) := by
      simp [ensureClientSync, hc, hp]
    simp [callersRun, hsync, ih s hc hp, List.replicate_succ]

/-- C1: from a state with no client and no pending attempt, any number n ≥ 1
of callers whose first-use requests all begin before the in-flight attempt
resolves start exactly one physical connection attempt, and every caller
awaits that same cached attempt. -/
theorem single_inflight_connection
    (s : ConnState) (n : Nat)
    (hc : s.client = none) (hp : s.clientPromise = none) (hn : 1 ≤ n) :
    (callersRun s n).1.attemptsStarted = s.attemptsStarted + 1 ∧
    (callersRun s n).2 = List.replicate n (EnsureOutcome.awaiting s.attemptsStarted) := by
  obtain ⟨m, rfl⟩ : ∃ m, n = m + 1 := ⟨n - 1, by omega⟩
  have hsync : ensureClientSync s =
      ({ s with clientPromise := some s.attemptsStarted,
                attemptsStarted := s.attemptsStarted + 1 },
       .awaiting s.attemptsStarted) := by
    simp [ensureClientSync, hc, hp]
  have hrest := callersRun_pending s.attemptsStarted m
    { s with clientPromise := some s.attemptsStarted,
             attemptsStarted := s.attemptsStarted + 1 }
    hc rfl
  simp [callersRun, hsync, hrest, List.replicate_succ]

/-- Witness for C1: three concurrent first-use callers against a fresh
session start exactly one attempt and all await attempt 0. -/
theorem single_inflight_connection_witness :
    (callersRun initConn 3).1.attemptsStarted = initConn.attemptsStarted + 1 ∧
    (callersRun initConn 3).2 =
      List.replicate 3 (EnsureOutcome.awaiting initConn.attemptsStarted) :=
  single_inflight_connection initConn 3 rfl rfl (by norm_num)

/-- With a cached attempt whose promise rejected, a full `#ensureClient` run
returns that same rejection and leaves the state untouched. -/
theorem ensureClient_pending_error (res : Nat → Except String Nat) (e : String)
    (s : ConnState) (p : Nat) (hc : s.client = none) (hp : s.clientPromise = some p)
    (hres : res p = .error e) : ensureClient s res = (s, .error e) := by
  simp [ensureClient, ensureClientSync, hc, hp, hres]

/-- Iterating session operations against a cached rejected attempt yields the
same error every time without touching the state. -/
theorem ensureClientRuns_error (res : Nat → Except String Nat) (e : String) (p : Nat) :
    ∀ (n : Nat) (s : ConnState), s.client = none → s.clientPromise = some p →
      res p = .error e →
      ensureClientRuns s res n = (s, List.replicate n (.error e)) := by
  intro n
  induction n with
  | zero => intro s hc hp hres; simp [ensureClientRuns]
  | succ m ih =>
    intro s hc hp hres
    simp [ensureClientRuns, ensureClient_pending_error res e s p hc hp hres,
      ih s hc hp hres, List.replicate_succ]

/-- C10: when the lazily created connect attempt rejects, the rejected
attempt stays cached: the first call returns the connect error having started
exactly one attempt, every subsequent operation returns that same error
without starting a new attempt, and only `dispose()` (or the disconnect
reset, which presupposes an established client) clears the cache. -/
theorem failed_connect_stays_cached
    (s : ConnState) (res : Nat → Except String Nat) (e : String) (n : Nat)
    (hc : s.client = none) (hp : s.clientPromise = none)
    (hres : res s.attemptsStarted = .error e) :
    (ensureClient s res).2 = .error e ∧
    (ensureClient s res).1.client = none ∧
    (ensureClient s res).1.clientPromise = some s.attemptsStarted ∧
    (ensureClient s res).1.attemptsStarted = s.attemptsStarted + 1 ∧
    (ensureClientRuns (ensureClient s res).1 res n).1 = (ensureClient s res).1 ∧
    (ensureClientRuns (ensureClient s res).1 res n).2 =
      List.replicate n (Except.error e) ∧
    (dispose (ensureClient s res).1).client = none ∧
    (dispose (ensureClient s res).1).clientPromise = none := by
  have h1 : ensureClient s res =
      ({ s with clientPromise := some s.attemptsStarted,
                attemptsStarted := s.attemptsStarted + 1 }, .error e) := by
    simp [ensureClient, ensureClientSync, hc, hp, hres]
  have h2 := ensureClientRuns_error res e s.attemptsStarted n
    { s with clientPromise := some s.attemptsStarted,
             attemptsStarted := s.attemptsStarted + 1 }
    hc rfl hres
  rw [h1]
  exact ⟨rfl, hc, rfl, rfl, by rw [h2], by rw [h2], rfl, rfl⟩

/-- Witness for C10: a fresh session whose connect attempt rejects with
"boom", probed by two further operations. -/
theorem failed_connect_stays_cached_witness :
    (ensureClient initConn (fun _ => Except.error "boom")).2 = Except.error "boom" ∧
    (ensureClient initConn (fun _ => Except.error "boom")).1.client = none ∧
    (ensureClient initConn (fun _ => Except.error "boom")).1.clientPromise =
      some initConn.attemptsStarted ∧
    (ensureClient initConn (fun _ => Except.error "boom")).1.attemptsStarted =
      initConn.attemptsStarted + 1 ∧
    (ensureClientRuns (ensureClient initConn (fun _ => Except.error "boom")).1
        (fun _ => Except.error "boom") 2).1 =
      (ensureClient initConn (fun _ => Except.error "boom")).1 ∧
    (ensureClientRuns (ensureClient initConn (fun _ => Except.error "boom")).1
        (fun _ => Except.error "boom") 2).2 =
      List.replicate 2 (Except.error "boom") ∧
    (dispose (ensureClient initConn (fun _ => Except.error "boom")).1).client = none ∧
    (dispose (ensureClient initConn (fun _ => Except.error "boom")).1).clientPromise =
      none :=
  failed_connect_stays_cached initConn (fun _ => Except.error "boom") "boom" 2 rfl rfl rfl

/-- `hide()` always leaves no decorated node and no pending timer. -/
theorem hide_clears (s : OverlayState) :
    (hide s).1.decoratedNodes = [] ∧ (hide s).1.timer = none := by
  rcases s with ⟨t, d, h⟩
  cases t <;> cases d <;> cases h <;> simp [hide]

/-- C5: two consecutive `highlight()` calls on a fresh overlay manager end
with exactly one armed timer and exactly one decorated node; the second
call's action trace cancels the first timer and restores the first node
before applying and decorating the second highlight; and after any
`highlight()` call from any state at most one node is decorated. -/
theorem consecutive_highlights_single_active
    (n₁ n₂ : Nat) (d₁ d₂ : ℚ) (t₁ t₂ : Nat) (hd₁ : 0 < d₁) (hd₂ : 0 < d₂) :
    ((highlight initOverlay n₁ d₁ t₁ true).1.timer = some t₁ ∧
      (highlight initOverlay n₁ d₁ t₁ true).1.decoratedNodes = [n₁] ∧
      (highlight initOverlay n₁ d₁ t₁ true).2 =
        [.applyHighlight n₁, .decorate n₁, .armTimer t₁ d₁]) ∧
    ((highlight (highlight initOverlay n₁ d₁ t₁ true).1 n₂ d₂ t₂ true).1.timer =
        some t₂ ∧
      (highlight (highlight initOverlay n₁ d₁ t₁ true).1 n₂ d₂ t₂ true).1.decoratedNodes =
        [n₂] ∧
      (highlight (highlight initOverlay n₁ d₁ t₁ true).1 n₂ d₂ t₂ true).2 =
        [.cancelTimer t₁, .restoreNode n₁, .hideHighlight,
         .applyHighlight n₂, .decorate n₂, .armTimer t₂ d₂]) ∧
    (∀ (s : OverlayState) (nodeId : Nat) (d : ℚ) (tid : Nat) (dec : Bool),
      (highlight s nodeId d tid dec).1.decoratedNodes.length ≤ 1) := by
  have h1 : highlight initOverlay n₁ d₁ t₁ true =
      (⟨some t₁, [n₁], true⟩, [.applyHighlight n₁, .decorate n₁, .armTimer t₁ d₁]) := by
    simp [highlight, hide, initOverlay, hd₁]
  have h2 : highlight (⟨some t₁, [n₁], true⟩ : OverlayState) n₂ d₂ t₂ true =
      (⟨some t₂, [n₂], true⟩,
       [.cancelTimer t₁, .restoreNode n₁, .hideHighlight,
        .applyHighlight n₂, .decorate n₂, .armTimer t₂ d₂]) := by
    simp [highlight, hide, hd₂]
  refine ⟨⟨by rw [h1], by rw [h1], by rw [h1]⟩,
    ⟨by rw [h1, h2], by rw [h1, h2], by rw [h1, h2]⟩, ?_⟩
  intro s nodeId d tid dec
  rcases hfst : hide s with ⟨s₁, tr₁⟩
  have hcl : s₁.decoratedNodes = [] := by
    have h := (hide_clears s).1
    rw [hfst] at h
    exact h
  by_cases hd0 : (0 : ℚ) < d <;> cases dec <;>
    simp [highlight, hfst, hcl, hd0]

/-- Witness for C5: two highlights of nodes 5 then 9 with the default
duration of 120000 ms. -/
theorem consecutive_highlights_single_active_witness :
    ((highlight initOverlay 5 120000 0 true).1.timer = some 0 ∧
      (highlight initOverlay 5 120000 0 true).1.decoratedNodes = [5] ∧
      (highlight initOverlay 5 120000 0 true).2 =
        [.applyHighlight 5, .decorate 5, .armTimer 0 120000]) ∧
    ((highlight (highlight initOverlay 5 120000 0 true).1 9 120000 1 true).1.timer =
        some 1 ∧
      (highlight (highlight initOverlay 5 120000 0 true).1 9 120000 1 true).1.decoratedNodes =
        [9] ∧
      (highlight (highlight initOverlay 5 120000 0 true).1 9 120000 1 true).2 =
        [.cancelTimer 0, .restoreNode 5, .hideHighlight,
         .applyHighlight 9, .decorate 9, .armTimer 1 120000]) ∧
    (∀ (s : OverlayState) (nodeId : Nat) (d : ℚ) (tid : Nat) (dec : Bool),
      (highlight s nodeId d tid dec).1.decoratedNodes.length ≤ 1) :=
  consecutive_highlights_single_active 5 9 120000 120000 0 1 (by norm_num) (by norm_num)

/-- Counterexample to C6: after two identical `subscribe({levels:['error']})`
calls exactly one console listener is attached, yet an upstream console event
of type "log" produces zero leveled notifications, not exactly one. -/
theorem subscribed_filter_drops_event :
    (subscribe (subscribe initStream { levels := some [.error] })
        { levels := some [.error] }).consoleListeners = 1 ∧
    consoleNotifications
        (subscribe (subscribe initStream { levels := some [.error] })
          { levels := some [.error] }) "log" = 0 := by
  exact ⟨rfl, rfl⟩

/-- Repeated `subscribe` against an already-attached manager only replaces
the stored subscription; the attached listeners are untouched. -/
theorem subscribeMany_attached_run :
    ∀ (os : List ConsoleM.ConsoleStreamOptions) (sub : Option ConsoleM.ConsoleStreamOptions),
      subscribeMany ⟨sub, true, true, 1, 1⟩ os =
        ⟨os.foldl (fun _ o => some (normalizeOptions o)) sub, true, true, 1, 1⟩ := by
  intro os
  induction os with
  | nil => intro sub; rfl
  | cons o os ih =>
    intro sub
    show subscribeMany (subscribe ⟨sub, true, true, 1, 1⟩ o) os = _
    rw [show subscribe ⟨sub, true, true, 1, 1⟩ o =
      (⟨some (normalizeOptions o), true, true, 1, 1⟩ : StreamState) from rfl]
    exact ih (some (normalizeOptions o))

/-- C6 (amended): after any number ≥ 1 of `subscribe()` calls on a fresh
manager with no intervening `unsubscribe()`, exactly one console and one
exception listener are attached, the stored options are those of the last
call, and one upstream event yields at most one leveled notification —
exactly one when it passes the stored subscription's filter (level
membership for console events, `includeExceptions` for exceptions). -/
theorem subscribe_idempotent_delivery
    (os : List ConsoleM.ConsoleStreamOptions) (oLast : ConsoleM.ConsoleStreamOptions) :
    (subscribeMany initStream (os ++ [oLast])).consoleListeners = 1 ∧
    (subscribeMany initStream (os ++ [oLast])).exceptionListeners = 1 ∧
    (subscribeMany initStream (os ++ [oLast])).subscription =
      some (normalizeOptions oLast) ∧
    (∀ t, consoleNotifications (subscribeMany initStream (os ++ [oLast])) t ≤ 1) ∧
    (∀ t, consoleEventPasses (subscribeMany initStream (os ++ [oLast])) t = true →
      consoleNotifications (subscribeMany initStream (os ++ [oLast])) t = 1) ∧
    exceptionNotifications (subscribeMany initStream (os ++ [oLast])) ≤ 1 ∧
    (exceptionEventPasses (subscribeMany initStream (os ++ [oLast])) = true →
      exceptionNotifications (subscribeMany initStream (os ++ [oLast])) = 1) := by
  have hstate : subscribeMany initStream (os ++ [oLast]) =
      ⟨some (normalizeOptions oLast), true, true, 1, 1⟩ := by
    cases os with
    | nil => rfl
    | cons o os' =>
      show subscribeMany (subscribe initStream o) (os' ++ [oLast]) = _
      rw [show subscribe initStream o =
        (⟨some (normalizeOptions o), true, true, 1, 1⟩ : StreamState) from rfl,
        subscribeMany_attached_run (os' ++ [oLast]) (some (normalizeOptions o)),
        List.foldl_append]
      rfl
  rw [hstate]
  refine ⟨rfl, rfl, rfl, ?_, ?_, ?_, ?_⟩
  · intro t
    cases h : consoleEventPasses (⟨some (normalizeOptions oLast), true, true, 1, 1⟩ :
        StreamState) t <;> simp [consoleNotifications, h]
  · intro t h
    simp [consoleNotifications, h]
  · cases h : exceptionEventPasses (⟨some (normalizeOptions oLast), true, true, 1, 1⟩ :
        StreamState) <;> simp [exceptionNotifications, h]
  · intro h
    simp [exceptionNotifications, h]

/-- `#recordEntry` appends the next-id entry and keeps the newest 500. -/
theorem recordEntry_entries (s : LogState) (e : EntryData) :
    (recordEntry s e).entries =
      (s.entries ++ [withId s.nextId e]).drop
        ((s.entries.length + 1) - MAX_BUFFERED_ENTRIES) := by
  have hA : (s.entries ++ [withId s.nextId e]).length = s.entries.length + 1 := by simp
  show (if (s.entries ++ [withId s.nextId e]).length > MAX_BUFFERED_ENTRIES then
      (s.entries ++ [withId s.nextId e]).drop
        ((s.entries ++ [withId s.nextId e]).length - MAX_BUFFERED_ENTRIES)
    else s.entries ++ [withId s.nextId e]) = _
  by_cases h : (s.entries ++ [withId s.nextId e]).length > MAX_BUFFERED_ENTRIES
  · rw [if_pos h, hA]
  · rw [if_neg h]
    rw [hA] at h
    have h0 : (s.entries.length + 1) - MAX_BUFFERED_ENTRIES = 0 := by
      simp only [MAX_BUFFERED_ENTRIES] at h ⊢
      omega
    rw [h0, List.drop_zero]

/-- `histFrom` assigns one entry per event. -/
theorem histFrom_length (n : Nat) (es : List EntryData) :
    (histFrom n es).length = es.length := by
  induction es generalizing n with
  | nil => rfl
  | cons e es ih => simp [histFrom, ih]

/-- Every id assigned from `n` onward is at least `n`. -/
theorem histFrom_id_ge (n : Nat) (es : List EntryData) :
    ∀ p ∈ histFrom n es, n ≤ p.id := by
  induction es generalizing n with
  | nil => intro p hp; simp [histFrom] at hp
  | cons e es ih =>
    intro p hp
    rcases (by simpa [histFrom] using hp : p = withId n e ∨ p ∈ histFrom (n + 1) es) with
      h | h
    · subst h; exact le_refl n
    · exact le_trans (Nat.le_succ n) (ih (n + 1) p h)

/-- The ids along the full assigned history strictly increase. -/
theorem histFrom_ids_pairwise (n : Nat) (es : List EntryData) :
    ((histFrom n es).map PageLogEntry.id).Pairwise (· < ·) := by
  induction es generalizing n with
  | nil => simp [histFrom]
  | cons e es ih =>
    refine List.Pairwise.cons ?_ (ih (n + 1))
    intro m hm
    obtain ⟨p, hp, rfl⟩ := List.mem_map.mp hm
    have := histFrom_id_ge (n + 1) es p hp
    show (withId n e).id < p.id
    simp [withId]
    omega

/-- The buffer fold keeps exactly the suffix of the assigned history that
fits in the 500-entry window. -/
theorem runLog_eq :
    ∀ (es : List EntryData) (s : LogState), s.entries.length ≤ MAX_BUFFERED_ENTRIES →
      runLog s es =
        ⟨(s.entries ++ histFrom s.nextId es).drop
            ((s.entries.length + es.length) - MAX_BUFFERED_ENTRIES),
          s.nextId + es.length⟩ := by
  intro es
  induction es with
  | nil =>
    intro s hle
    have h0 : s.entries.length - MAX_BUFFERED_ENTRIES = 0 := Nat.sub_eq_zero_of_le hle
    simp [runLog, histFrom, h0]
  | cons e es ih =>
    intro s hle
    have hA : (s.entries ++ [withId s.nextId e]).length = s.entries.length + 1 := by simp
    have hlen : (recordEntry s e).entries.length =
        min (s.entries.length + 1) MAX_BUFFERED_ENTRIES := by
      rw [recordEntry_entries, List.length_drop, hA]
      simp only [MAX_BUFFERED_ENTRIES]
      omega
    have hle' : (recordEntry s e).entries.length ≤ MAX_BUFFERED_ENTRIES := by
      rw [hlen]; exact min_le_right _ _
    have ihh := ih (recordEntry s e) hle'
    show runLog (recordEntry s e) es = _
    rw [ihh]
    have hnext : (recordEntry s e).nextId = s.nextId + 1 := rfl
    rw [hnext, recordEntry_entries]
    have hk : (s.entries.length + 1) - MAX_BUFFERED_ENTRIES ≤
        (s.entries ++ [withId s.nextId e]).length := by
      rw [hA]; omega
    rw [LogState.mk.injEq]
    constructor
    · rw [← List.drop_append_of_le_length hk, List.drop_drop]
      have hassoc : (s.entries ++ [withId s.nextId e]) ++ histFrom (s.nextId + 1) es =
          s.entries ++ histFrom s.nextId (e :: es) := by
        simp [histFrom]
      rw [hassoc]
      have harg :
          (s.entries.length + 1 - MAX_BUFFERED_ENTRIES) +
            (((s.entries ++ [withId s.nextId e]).drop
                (s.entries.length + 1 - MAX_BUFFERED_ENTRIES)).length + es.length -
              MAX_BUFFERED_ENTRIES) =
          s.entries.length + (e :: es).length - MAX_BUFFERED_ENTRIES := by
        rw [List.length_drop, hA]
        simp only [List.length_cons, MAX_BUFFERED_ENTRIES]
        omega
      rw [harg]
    · simp only [List.length_cons]
      omega

/-- C2: after more than 500 recorded events the buffer holds exactly the 500
most recently assigned entries in insertion order, `getEntries` with no kind
filter and limit ≥ 500 returns exactly those 500 newest-first, and the ids
along the retained window strictly increase in insertion order. -/
theorem log_buffer_window (es : List EntryData) (limit : Nat)
    (hlen : 500 < es.length) (hlim : 500 ≤ limit) :
    (runLog initLogState es).entries.length = 500 ∧
    (runLog initLogState es).entries = (histFrom 1 es).drop (es.length - 500) ∧
    getEntries (runLog initLogState es) limit none true =
      ((histFrom 1 es).drop (es.length - 500)).reverse ∧
    ((runLog initLogState es).entries.map PageLogEntry.id).Pairwise (· < ·) := by
  have hrun := runLog_eq es initLogState (by simp [initLogState, MAX_BUFFERED_ENTRIES])
  have hent : (runLog initLogState es).entries = (histFrom 1 es).drop (es.length - 500) := by
    rw [hrun]
    simp [initLogState, MAX_BUFFERED_ENTRIES]
  have hl500 : (runLog initLogState es).entries.length = 500 := by
    rw [hent, List.length_drop, histFrom_length]
    omega
  refine ⟨hl500, hent, ?_, ?_⟩
  · have h0 : (runLog initLogState es).entries.length - limit = 0 := by
      rw [hl500]; omega
    have hunf : getEntries (runLog initLogState es) limit none true =
        ((runLog initLogState es).entries.drop
          ((runLog initLogState es).entries.length - limit)).reverse := rfl
    rw [hunf, h0, List.drop_zero, hent]
  · rw [hent]
    exact List.Pairwise.sublist ((List.drop_sublist _ _).map _) (histFrom_ids_pairwise 1 es)

/-- Witness for C2: 501 console events, listed with limit 500. -/
theorem log_buffer_window_witness :
    (runLog initLogState (List.replicate 501 sampleEntry)).entries.length = 500 ∧
    (runLog initLogState (List.replicate 501 sampleEntry)).entries =
      (histFrom 1 (List.replicate 501 sampleEntry)).drop
        ((List.replicate 501 sampleEntry).length - 500) ∧
    getEntries (runLog initLogState (List.replicate 501 sampleEntry)) 500 none true =
      ((histFrom 1 (List.replicate 501 sampleEntry)).drop
        ((List.replicate 501 sampleEntry).length - 500)).reverse ∧
    ((runLog initLogState (List.replicate 501 sampleEntry)).entries.map
      PageLogEntry.id).Pairwise (· < ·) :=
  log_buffer_window (List.replicate 501 sampleEntry) 500
    (by rw [List.length_replicate]; norm_num) (by norm_num)

/-- Witness for C6 (amended): one subscribe with default options; an upstream
"error" console event passes the filter and yields exactly one notification,
as does an exception event. -/
theorem subscribe_idempotent_delivery_witness :
    (subscribeMany initStream ([] ++ [emptyStreamOptions])).consoleListeners = 1 ∧
    (subscribeMany initStream ([] ++ [emptyStreamOptions])).exceptionListeners = 1 ∧
    (subscribeMany initStream ([] ++ [emptyStreamOptions])).subscription =
      some (normalizeOptions emptyStreamOptions) ∧
    consoleNotifications (subscribeMany initStream ([] ++ [emptyStreamOptions])) "error" ≤ 1 ∧
    consoleNotifications (subscribeMany initStream ([] ++ [emptyStreamOptions])) "error" = 1 ∧
    exceptionNotifications (subscribeMany initStream ([] ++ [emptyStreamOptions])) ≤ 1 ∧
    exceptionNotifications (subscribeMany initStream ([] ++ [emptyStreamOptions])) = 1 := by
  have h := subscribe_idempotent_delivery [] emptyStreamOptions
  exact ⟨h.1, h.2.1, h.2.2.1, h.2.2.2.1 "error", h.2.2.2.2.1 "error" rfl,
    h.2.2.2.2.2.1, h.2.2.2.2.2.2 rfl⟩

/-- Witness for C7 (amended): the filter equivalence and listing shape at the
single-pending-record state with `onlyFailed = true`. -/
theorem list_requests_filter_semantics_witness :
    (passesFilters { onlyFailed := true } pendingRecord = true ↔
      AmendedPass { onlyFailed := true } pendingRecord) ∧
    listRequests pendingState { onlyFailed := true } =
      ((getRequests pendingState).filter
        (passesFilters { onlyFailed := true })).take (20 : Nat) ∧
    (listRequests pendingState { onlyFailed := true }).Sublist
      (getRequests pendingState) ∧
    (listRequests pendingState { onlyFailed := true }).length =
      min (20 : Nat) ((getRequests pendingState).filter
        (passesFilters { onlyFailed := true })).length ∧
    ∀ r ∈ listRequests pendingState { onlyFailed := true },
      AmendedPass { onlyFailed := true } r := by
  have h := list_requests_filter_semantics
  have h2 := h.2 pendingState { onlyFailed := true }
  exact ⟨h.1 { onlyFailed := true } pendingRecord, h2.1, h2.2.1, h2.2.2.1, h2.2.2.2⟩
